import Mathlib

/-!
# Model registry store (server/internal/store/model.go)

A shallow embedding of the model store. The Go code drives a relational
table through the gorm library; the table is embedded as the list of its rows
in storage order, and the handful of gorm calls the store makes (Where,
Unscoped, Take, Find, Create, Update, Delete) are embedded as functions on that
list. Every store operation returns its result together with the store state
after the call, so that "the store is unchanged" is a statement to be proved.

Conventions of the embedding:
* timestamps are natural numbers and the time of a statement is passed in as
  the argument now;
* the backing database is assumed reachable: the only errors are the ones the
  queries themselves produce (gorm.ErrRecordNotFound and the violation of the
  unique index on model_id, which the spec calls NotFound and AlreadyExists);
* a query without ORDER BY yields rows in storage order.
-/

namespace store

/-! ## Data model -/

/-- Errors a store call can return: gorm.ErrRecordNotFound (the spec's NotFound)
and the violation of the unique index on model_id reported by Create (the
spec's AlreadyExists). The store returns both unwrapped. -/
inductive Error where
  | ErrRecordNotFound
  | ErrDuplicatedKey
  deriving DecidableEq, Repr

/-- The embedded gorm.Model base: primary key and the soft-delete lifecycle
columns. DeletedAt is none for a live row. -/
structure GormModel where
  ID : Nat
  CreatedAt : Nat
  UpdatedAt : Nat
  DeletedAt : Option Nat
  deriving DecidableEq, Repr

/-- Model represents a model (type Model struct). -/
structure Model extends GormModel where
  ModelID : String
  TenantID : String
  OrganizationID : String
  ProjectID : String
  Path : String
  IsPublished : Bool
  deriving DecidableEq, Repr

/-- ModelSpec represents a model spec that is passed to CreateModel. -/
structure ModelSpec where
  ModelID : String
  TenantID : String
  OrganizationID : String
  ProjectID : String
  Path : String
  IsPublished : Bool
  deriving DecidableEq, Repr

/-! ## The gorm calls used by the store -/

/-- The table models: its rows in storage order and the auto-increment counter
of the primary key. -/
structure DB where
  models : List Model
  nextID : Nat
  deriving DecidableEq, Repr

/-- One equality test of a WHERE clause, as they occur in model.go. -/
inductive Cond where
  | modelID (v : String)
  | projectID (v : String)
  | isPublished (v : Bool)
  deriving DecidableEq, Repr

/-- Whether a row satisfies one equality test. -/
def Cond.holds (c : Cond) (m : Model) : Bool :=
  match c with
  | .modelID v => decide (m.ModelID = v)
  | .projectID v => decide (m.ProjectID = v)
  | .isPublished v => decide (m.IsPublished = v)

/-- A statement under construction: the conjunction of the WHERE tests added so
far and whether Unscoped() switched the soft-delete filter off. -/
structure Query where
  conds : List Cond
  unscoped : Bool
  deriving DecidableEq, Repr

/-- A fresh statement, as obtained from s.db. -/
def Query.new : Query := { conds := [], unscoped := false }

/-- Adds tests to the statement; successive Where calls are joined by AND. -/
def Query.Where (q : Query) (cs : List Cond) : Query :=
  { q with conds := q.conds ++ cs }

/-- Switches off the soft-delete filter (db.Unscoped()). -/
def Query.Unscoped (q : Query) : Query :=
  { q with unscoped := true }

/-- The rows a statement selects: all tests hold and, unless the statement is
unscoped, deleted_at IS NULL. -/
def Query.selects (q : Query) (m : Model) : Bool :=
  q.conds.all (fun c => c.holds m) && (q.unscoped || m.DeletedAt.isNone)

/-- Take: one selected row (LIMIT 1, no ordering), ErrRecordNotFound when there
is none. -/
def DB.Take (db : DB) (q : Query) : Except Error Model :=
  match db.models.find? q.selects with
  | some m => .ok m
  | none => .error .ErrRecordNotFound

/-- Find: all selected rows; an empty result is not an error. -/
def DB.Find (db : DB) (q : Query) : Except Error (List Model) :=
  .ok (db.models.filter q.selects)

/-- Create: inserts the row. The primary key is taken from the counter and the
timestamps are set to now; the insert is refused when a row (soft-deleted or
not) already carries the same model_id, because of the unique index, and then
nothing is written. -/
def DB.Create (db : DB) (m : Model) (now : Nat) : Except Error Model × DB :=
  if db.models.any (fun r => decide (r.ModelID = m.ModelID)) then
    (.error .ErrDuplicatedKey, db)
  else
    let row : Model := { m with ID := db.nextID, CreatedAt := now, UpdatedAt := now }
    (.ok row, { models := db.models ++ [row], nextID := db.nextID + 1 })

/-- Update("is_published", v) on the selected rows; updated_at is refreshed as
gorm does for every update. Returns RowsAffected (the number of selected rows)
and the table after the statement. -/
def DB.Update (db : DB) (q : Query) (v : Bool) (now : Nat) : Nat × DB :=
  ((db.models.filter q.selects).length,
   { db with models := db.models.map (fun r =>
      if q.selects r then { r with IsPublished := v, UpdatedAt := now } else r) })

/-- Delete on the selected rows: an unscoped statement removes them, a scoped
one marks them deleted at now. Returns RowsAffected and the table after the
statement. -/
def DB.Delete (db : DB) (q : Query) (now : Nat) : Nat × DB :=
  ((db.models.filter q.selects).length,
   if q.unscoped then
     { db with models := db.models.filter (fun r => !q.selects r) }
   else
     { db with models := db.models.map (fun r =>
        if q.selects r then { r with DeletedAt := some now } else r) })

/-! ## The store -/

/-- The store handle (type S struct), holding the database. -/
structure S where
  db : DB
  deriving DecidableEq, Repr

/-- A store over an empty table. -/
def S.empty : S := { db := { models := [], nextID := 1 } }

/-- CreateModel creates a model. -/
def S.CreateModel (s : S) (spec : ModelSpec) (now : Nat) : Except Error Model × S :=
  let m : Model :=
    { ID := 0, CreatedAt := 0, UpdatedAt := 0, DeletedAt := none,
      ModelID := spec.ModelID,
      TenantID := spec.TenantID,
      OrganizationID := spec.OrganizationID,
      ProjectID := spec.ProjectID,
      Path := spec.Path,
      IsPublished := spec.IsPublished }
  match s.db.Create m now with
  | (.error err, db) => (.error err, { db := db })
  | (.ok row, db) => (.ok row, { db := db })

/-- GetPublishedModelByModelIDAndProjectID returns a published model by model ID
and project ID (the Go comment says tenant ID; the query filters on project_id). -/
def S.GetPublishedModelByModelIDAndProjectID (s : S) (modelID projectID : String) :
    Except Error Model × S :=
  (s.db.Take (Query.new.Where [.modelID modelID, .projectID projectID, .isPublished true]), s)

/-- GetModelByModelID returns a model by model ID. -/
def S.GetModelByModelID (s : S) (modelID : String) : Except Error Model × S :=
  (s.db.Take (Query.new.Where [.modelID modelID]), s)

/-- GetPublishedModelByModelID returns a published model by model ID. -/
def S.GetPublishedModelByModelID (s : S) (modelID : String) : Except Error Model × S :=
  (s.db.Take (Query.new.Where [.modelID modelID, .isPublished true]), s)

/-- ListModelsByProjectID finds models. -/
def S.ListModelsByProjectID (s : S) (projectID : String) (onlyPublished : Bool) :
    Except Error (List Model) × S :=
  let q := Query.new.Where [.projectID projectID]
  let q := if onlyPublished then q.Where [.isPublished true] else q
  (s.db.Find q, s)

/-- ListAllPublishedModels finds all published models. -/
def S.ListAllPublishedModels (s : S) : Except Error (List Model) × S :=
  (s.db.Find (Query.new.Where [.isPublished true]), s)

/-- DeleteModel deletes a model by model ID and project ID (the Go comment says
tenant ID; the query filters on project_id). The statement is unscoped, so now
(the soft-delete timestamp) plays no role. -/
def S.DeleteModel (s : S) (modelID projectID : String) (now : Nat) : Except Error Unit × S :=
  let res := s.db.Delete (Query.new.Unscoped.Where [.modelID modelID, .projectID projectID]) now
  if res.1 = 0 then
    (.error .ErrRecordNotFound, { db := res.2 })
  else
    (.ok (), { db := res.2 })

/-- UpdateModel updates the model. -/
def S.UpdateModel (s : S) (modelID : String) (isPublished : Bool) (now : Nat) :
    Except Error Unit × S :=
  let res := s.db.Update (Query.new.Where [.modelID modelID]) isPublished now
  if res.1 = 0 then
    (.error .ErrRecordNotFound, { db := res.2 })
  else
    (.ok (), { db := res.2 })

/-- The unique index on model_id: no two rows of the table, soft-deleted or not,
carry the same ModelID. -/
def S.UniqueModelIDs (s : S) : Prop :=
  s.db.models.Pairwise (fun a b => a.ModelID ≠ b.ModelID)

end store

namespace server

/-! ## HF repository registrar

The handlers GetHFModelRepo and CreateHFModelRepo are exercised by
hf_model_repos_test.go; the definitions below follow the spec's description of
them. -/

/-- The gRPC status codes the handlers answer with (google.golang.org/grpc/codes). -/
inductive Code where
  | NotFound
  | AlreadyExists
  | Internal
  deriving DecidableEq, Repr

/-- Modelled from the spec: the repository-registration record, which the
source tree only uses through its Name; a registration carries the repository
name and the tenant scope it was registered in. -/
structure HFModelRepo where
  Name : String
  TenantID : String
  deriving DecidableEq, Repr

/-- Modelled from the spec: the caller identity the handler resolves from the
request context (fakeAuthInto in the test), of which the registrar uses the
tenant scope. -/
structure UserInfo where
  TenantID : String
  deriving DecidableEq, Repr

/-- Modelled from the spec: the two policies the spec leaves open for a second
create of the same name, idempotent upsert or rejection with AlreadyExists. -/
inductive DuplicatePolicy where
  | upsert
  | reject
  deriving DecidableEq, Repr

/-- Modelled from the spec: the state behind the worker service server, the
stored registrations and the duplicate policy in force. -/
structure WS where
  repos : List HFModelRepo
  policy : DuplicatePolicy
  deriving DecidableEq, Repr

/-- Modelled from the spec: a registrar without registrations (store.NewTest). -/
def WS.empty (policy : DuplicatePolicy) : WS := { repos := [], policy := policy }

/-- Modelled from the spec: GetHFModelRepo returns the registration of that name
in the caller scope, or fails NotFound if no row with that name exists. -/
def WS.GetHFModelRepo (w : WS) (ctx : UserInfo) (name : String) : Except Code HFModelRepo × WS :=
  match w.repos.find? (fun r => decide (r.Name = name ∧ r.TenantID = ctx.TenantID)) with
  | some r => (.ok r, w)
  | none => (.error .NotFound, w)

/-- Modelled from the spec: CreateHFModelRepo inserts a new registration; on a
name already registered in the caller scope it either returns the existing
registration (upsert) or fails AlreadyExists (reject). -/
def WS.CreateHFModelRepo (w : WS) (ctx : UserInfo) (name : String) :
    Except Code HFModelRepo × WS :=
  match w.repos.find? (fun r => decide (r.Name = name ∧ r.TenantID = ctx.TenantID)) with
  | some r =>
    match w.policy with
    | .upsert => (.ok r, w)
    | .reject => (.error .AlreadyExists, w)
  | none =>
    let r : HFModelRepo := { Name := name, TenantID := ctx.TenantID }
    (.ok r, { w with repos := w.repos ++ [r] })

/-- The caller of the test scenario. -/
def fakeAuth : UserInfo := { TenantID := "default-tenant-id" }

end server


namespace store

/-! ## Example states -/

/-- A spec for model m0 of project p2, unpublished. -/
def specM0 : ModelSpec :=
  { ModelID := "m0", TenantID := "t0", OrganizationID := "o0", ProjectID := "p2",
    Path := "models/m0", IsPublished := false }

/-- A spec for model m1 of project p1, published. -/
def specM1 : ModelSpec :=
  { ModelID := "m1", TenantID := "t0", OrganizationID := "o0", ProjectID := "p1",
    Path := "models/m1", IsPublished := true }

/-- A spec reusing the ID m0 under another tenant and project. -/
def specM0Other : ModelSpec :=
  { ModelID := "m0", TenantID := "t9", OrganizationID := "o9", ProjectID := "p9",
    Path := "elsewhere", IsPublished := true }

/-- The store after creating m0. -/
def storeOne : S := (S.empty.CreateModel specM0 5).2

/-- The store after creating m0 and then m1. -/
def storeTwo : S := (storeOne.CreateModel specM1 6).2

/-- The states the store can be in: the empty store and whatever CreateModel,
UpdateModel and DeleteModel make of a reachable state, whether the call
succeeds or fails. -/
inductive Reachable : S → Prop where
  | empty : Reachable S.empty
  | create (s : S) (spec : ModelSpec) (now : Nat) :
      Reachable s → Reachable (s.CreateModel spec now).2
  | update (s : S) (modelID : String) (isPublished : Bool) (now : Nat) :
      Reachable s → Reachable (s.UpdateModel modelID isPublished now).2
  | delete (s : S) (modelID projectID : String) (now : Nat) :
      Reachable s → Reachable (s.DeleteModel modelID projectID now).2

/-! ## Lemmas on the gorm calls -/

theorem selects_modelID (id : String) (m : Model) :
    (Query.new.Where [.modelID id]).selects m = true ↔
      m.ModelID = id ∧ m.DeletedAt = none := by
  simp [Query.selects, Query.new, Query.Where, Cond.holds]

theorem selects_modelID_published (id : String) (m : Model) :
    (Query.new.Where [.modelID id, .isPublished true]).selects m = true ↔
      (m.ModelID = id ∧ m.IsPublished = true) ∧ m.DeletedAt = none := by
  simp [Query.selects, Query.new, Query.Where, Cond.holds]

theorem selects_modelID_projectID_published (id p : String) (m : Model) :
    (Query.new.Where [.modelID id, .projectID p, .isPublished true]).selects m = true ↔
      (m.ModelID = id ∧ m.ProjectID = p ∧ m.IsPublished = true) ∧ m.DeletedAt = none := by
  simp [Query.selects, Query.new, Query.Where, Cond.holds]

theorem selects_projectID (p : String) (m : Model) :
    (Query.new.Where [.projectID p]).selects m = true ↔
      m.ProjectID = p ∧ m.DeletedAt = none := by
  simp [Query.selects, Query.new, Query.Where, Cond.holds]

theorem selects_projectID_published (p : String) (m : Model) :
    ((Query.new.Where [.projectID p]).Where [.isPublished true]).selects m = true ↔
      (m.ProjectID = p ∧ m.IsPublished = true) ∧ m.DeletedAt = none := by
  simp [Query.selects, Query.new, Query.Where, Cond.holds]

theorem selects_unscoped_modelID_projectID (id p : String) (m : Model) :
    (Query.new.Unscoped.Where [.modelID id, .projectID p]).selects m = true ↔
      m.ModelID = id ∧ m.ProjectID = p := by
  simp [Query.selects, Query.new, Query.Where, Query.Unscoped, Cond.holds]

/-- Take fails exactly when no row is selected. -/
theorem take_eq_error (db : DB) (q : Query) (e : Error) :
    db.Take q = .error e ↔ e = .ErrRecordNotFound ∧ ∀ m ∈ db.models, q.selects m = false := by
  unfold DB.Take
  cases h : db.models.find? q.selects with
  | none =>
    simp only [List.find?_eq_none] at h
    constructor
    · intro he
      injection he with he
      exact ⟨he.symm, fun m hm => by simpa using h m hm⟩
    · rintro ⟨rfl, -⟩
      rfl
  | some r =>
    have hr := List.find?_some h
    have hmem := List.mem_of_find?_eq_some h
    constructor
    · intro he
      cases he
    · rintro ⟨-, hall⟩
      rw [hall r hmem] at hr
      cases hr

/-- A row returned by Take is a selected row of the table. -/
theorem take_ok_mem (db : DB) (q : Query) (m : Model) (h : db.Take q = .ok m) :
    m ∈ db.models ∧ q.selects m = true := by
  unfold DB.Take at h
  cases hf : db.models.find? q.selects with
  | none => rw [hf] at h; cases h
  | some r =>
    rw [hf] at h
    injection h with h
    subst h
    exact ⟨List.mem_of_find?_eq_some hf, List.find?_some hf⟩

/-- Take succeeds when some row is selected. -/
theorem take_ok_of_mem (db : DB) (q : Query) (r : Model) (hr : r ∈ db.models)
    (hs : q.selects r = true) : ∃ m, db.Take q = .ok m := by
  unfold DB.Take
  cases hf : db.models.find? q.selects with
  | none =>
    simp only [List.find?_eq_none] at hf
    exact absurd hs (hf r hr)
  | some m => exact ⟨m, rfl⟩

/-- CreateModel on a fresh ModelID appends the new row. -/
theorem createModel_fresh (s : S) (spec : ModelSpec) (now : Nat)
    (h : ∀ r ∈ s.db.models, r.ModelID ≠ spec.ModelID) :
    ∃ m : Model, s.CreateModel spec now =
        (.ok m, { db := { models := s.db.models ++ [m], nextID := s.db.nextID + 1 } }) ∧
      m.ID = s.db.nextID ∧ m.CreatedAt = now ∧ m.UpdatedAt = now ∧ m.DeletedAt = none ∧
      m.ModelID = spec.ModelID ∧ m.TenantID = spec.TenantID ∧
      m.OrganizationID = spec.OrganizationID ∧ m.ProjectID = spec.ProjectID ∧
      m.Path = spec.Path ∧ m.IsPublished = spec.IsPublished := by
  have hany : (s.db.models.any fun r => decide (r.ModelID = spec.ModelID)) = false := by
    simpa [List.any_eq_false] using h
  refine ⟨{ ID := s.db.nextID, CreatedAt := now, UpdatedAt := now, DeletedAt := none,
             ModelID := spec.ModelID, TenantID := spec.TenantID,
             OrganizationID := spec.OrganizationID, ProjectID := spec.ProjectID,
             Path := spec.Path, IsPublished := spec.IsPublished },
    ?_, rfl, rfl, rfl, rfl, rfl, rfl, rfl, rfl, rfl, rfl⟩
  simp only [S.CreateModel, DB.Create, hany]
  rfl

/-- CreateModel on a ModelID already in the table is refused and writes nothing. -/
theorem createModel_taken (s : S) (spec : ModelSpec) (now : Nat)
    (h : ∃ r ∈ s.db.models, r.ModelID = spec.ModelID) :
    s.CreateModel spec now = (.error .ErrDuplicatedKey, s) := by
  have hany : (s.db.models.any fun r => decide (r.ModelID = spec.ModelID)) = true := by
    simpa [List.any_eq_true] using h
  simp only [S.CreateModel, DB.Create, hany]
  rfl

/-- A successful CreateModel was made on a fresh ModelID. -/
theorem createModel_ok_fresh (s : S) (spec : ModelSpec) (now : Nat) (m : Model)
    (h : (s.CreateModel spec now).1 = .ok m) :
    ∀ r ∈ s.db.models, r.ModelID ≠ spec.ModelID := by
  intro r hr heq
  rw [createModel_taken s spec now ⟨r, hr, heq⟩] at h
  cases h

/-- Take on a table whose only selected row is the last one returns that row. -/
theorem take_append_last (l : List Model) (n : Nat) (q : Query) (m : Model)
    (hnone : ∀ r ∈ l, q.selects r = false) (hm : q.selects m = true) :
    DB.Take { models := l ++ [m], nextID := n } q = .ok m := by
  have h0 : l.find? q.selects = none := by
    rw [List.find?_eq_none]
    intro r hr
    simp [hnone r hr]
  simp [DB.Take, List.find?_append, h0, List.find?, hm]

/-- Rewriting the selected rows leaves a table without selected rows as it is. -/
theorem map_selected_none (l : List Model) (q : Query) (g : Model → Model)
    (hnone : ∀ r ∈ l, q.selects r = false) :
    l.map (fun r => if q.selects r then g r else r) = l := by
  induction l with
  | nil => rfl
  | cons a t ih =>
    have ha : q.selects a = false := hnone a (List.mem_cons_self a t)
    have ht : ∀ r ∈ t, q.selects r = false := fun r hr => hnone r (List.mem_cons_of_mem a hr)
    simp [ha, ih ht]

/-- No row is selected exactly when the count of selected rows is zero. -/
theorem filter_length_eq_zero (l : List Model) (f : Model → Bool) :
    (l.filter f).length = 0 ↔ ∀ r ∈ l, f r = false := by
  rw [List.length_eq_zero, List.filter_eq_nil_iff]
  constructor
  · intro h r hr
    simpa using h r hr
  · intro h r hr
    simp [h r hr]

/-- The rows UpdateModel selects: the live rows carrying the model ID. -/
theorem selects_modelID_eq (id : String) :
    (Query.new.Where [.modelID id]).selects =
      fun m => decide (m.ModelID = id ∧ m.DeletedAt = none) := by
  funext m
  rw [Bool.eq_iff_iff, selects_modelID]
  simp

/-- The rows DeleteModel selects: all rows carrying the model ID and project ID. -/
theorem selects_unscoped_eq (id p : String) :
    (Query.new.Unscoped.Where [.modelID id, .projectID p]).selects =
      fun m => decide (m.ModelID = id ∧ m.ProjectID = p) := by
  funext m
  rw [Bool.eq_iff_iff, selects_unscoped_modelID_projectID]
  simp

/-- UpdateModel when no live row carries the model ID. -/
theorem updateModel_absent (s : S) (id : String) (b : Bool) (now : Nat)
    (h : ∀ r ∈ s.db.models, ¬ (r.ModelID = id ∧ r.DeletedAt = none)) :
    s.UpdateModel id b now = (.error .ErrRecordNotFound, s) := by
  have hnone : ∀ r ∈ s.db.models, (Query.new.Where [.modelID id]).selects r = false := by
    intro r hr
    rw [selects_modelID_eq]
    simpa using h r hr
  have hlen := (filter_length_eq_zero s.db.models _).2 hnone
  simp only [S.UpdateModel, DB.Update, hlen, if_true]
  rw [map_selected_none s.db.models _ _ hnone]

/-- UpdateModel when some live row carries the model ID. -/
theorem updateModel_present (s : S) (id : String) (b : Bool) (now : Nat)
    (h : ∃ r ∈ s.db.models, r.ModelID = id ∧ r.DeletedAt = none) :
    s.UpdateModel id b now =
      (.ok (), { db := { nextID := s.db.nextID, models := s.db.models.map (fun r =>
          if decide (r.ModelID = id ∧ r.DeletedAt = none) = true
          then { r with IsPublished := b, UpdatedAt := now } else r) } }) := by
  have hlen : (s.db.models.filter (Query.new.Where [.modelID id]).selects).length ≠ 0 := by
    intro h0
    obtain ⟨r, hr, hsel⟩ := h
    have := (filter_length_eq_zero s.db.models _).1 h0 r hr
    rw [(selects_modelID id r).2 hsel] at this
    cases this
  simp only [S.UpdateModel, DB.Update, hlen, if_false]
  rw [selects_modelID_eq]

/-- DeleteModel when no row carries both the model ID and the project ID. -/
theorem deleteModel_absent (s : S) (id p : String) (now : Nat)
    (h : ∀ r ∈ s.db.models, ¬ (r.ModelID = id ∧ r.ProjectID = p)) :
    s.DeleteModel id p now = (.error .ErrRecordNotFound, s) := by
  have hnone : ∀ r ∈ s.db.models,
      (Query.new.Unscoped.Where [.modelID id, .projectID p]).selects r = false := by
    intro r hr
    rw [selects_unscoped_eq]
    simpa using h r hr
  have hlen := (filter_length_eq_zero s.db.models _).2 hnone
  have hkeep : s.db.models.filter
      (fun r => !(Query.new.Unscoped.Where [.modelID id, .projectID p]).selects r)
      = s.db.models := by
    rw [List.filter_eq_self]
    intro r hr
    simp [hnone r hr]
  have hu : (Query.new.Unscoped.Where [.modelID id, .projectID p]).unscoped = true := rfl
  simp only [S.DeleteModel, DB.Delete, hlen, if_true, hu, hkeep]

/-- DeleteModel when some row carries both the model ID and the project ID. -/
theorem deleteModel_present (s : S) (id p : String) (now : Nat)
    (h : ∃ r ∈ s.db.models, r.ModelID = id ∧ r.ProjectID = p) :
    s.DeleteModel id p now =
      (.ok (), { db := { nextID := s.db.nextID, models := s.db.models.filter (fun r =>
          !decide (r.ModelID = id ∧ r.ProjectID = p)) } }) := by
  have hlen : (s.db.models.filter
      (Query.new.Unscoped.Where [.modelID id, .projectID p]).selects).length ≠ 0 := by
    intro h0
    obtain ⟨r, hr, hsel⟩ := h
    have := (filter_length_eq_zero s.db.models _).1 h0 r hr
    rw [(selects_unscoped_modelID_projectID id p r).2 hsel] at this
    cases this
  have hu : (Query.new.Unscoped.Where [.modelID id, .projectID p]).unscoped = true := rfl
  simp only [S.DeleteModel, DB.Delete, hlen, if_false, hu, if_true]
  rw [selects_unscoped_eq]

/-- Under the unique index two rows with the same ModelID are the same row. -/
theorem eq_of_modelID_eq (s : S) (hu : s.UniqueModelIDs) (a b : Model)
    (ha : a ∈ s.db.models) (hb : b ∈ s.db.models) (h : a.ModelID = b.ModelID) : a = b := by
  by_contra hne
  have hsymm : Symmetric (fun x y : Model => x.ModelID ≠ y.ModelID) := fun x y hxy => Ne.symm hxy
  exact List.Pairwise.forall hsymm hu ha hb hne h

/-! ## Create and look up -/

/-- C1: in every store state, CreateModel of a spec whose ModelID no stored row
carries succeeds, and the following GetModelByModelID of that ID succeeds and
returns the created model, whose ModelID, TenantID, OrganizationID, ProjectID,
Path and IsPublished are those of the spec. -/
theorem createModel_then_getModelByModelID (s : S) (spec : ModelSpec) (now : Nat)
    (hfresh : ∀ r ∈ s.db.models, r.ModelID ≠ spec.ModelID) :
    ∃ m : Model, (s.CreateModel spec now).1 = .ok m ∧
      ((s.CreateModel spec now).2.GetModelByModelID spec.ModelID).1 = .ok m ∧
      m.ModelID = spec.ModelID ∧ m.TenantID = spec.TenantID ∧
      m.OrganizationID = spec.OrganizationID ∧ m.ProjectID = spec.ProjectID ∧
      m.Path = spec.Path ∧ m.IsPublished = spec.IsPublished := by
  obtain ⟨m, hc, -, -, -, hdel, hid, ht, ho, hp, hpath, hpub⟩ :=
    createModel_fresh s spec now hfresh
  refine ⟨m, by rw [hc], ?_, hid, ht, ho, hp, hpath, hpub⟩
  rw [hc]
  simp only [S.GetModelByModelID]
  apply take_append_last
  · intro r hr
    cases hsel : (Query.new.Where [.modelID spec.ModelID]).selects r with
    | false => rfl
    | true => exact absurd ((selects_modelID _ _).1 hsel).1 (hfresh r hr)
  · exact (selects_modelID _ _).2 ⟨hid, hdel⟩

/-- C1 at the empty store and the spec of m0. -/
theorem createModel_then_getModelByModelID_witness :
    (∀ r ∈ S.empty.db.models, r.ModelID ≠ specM0.ModelID) ∧
    ∃ m : Model, (S.empty.CreateModel specM0 5).1 = .ok m ∧
      ((S.empty.CreateModel specM0 5).2.GetModelByModelID specM0.ModelID).1 = .ok m ∧
      m.ModelID = specM0.ModelID ∧ m.TenantID = specM0.TenantID ∧
      m.OrganizationID = specM0.OrganizationID ∧ m.ProjectID = specM0.ProjectID ∧
      m.Path = specM0.Path ∧ m.IsPublished = specM0.IsPublished :=
  ⟨by decide, createModel_then_getModelByModelID S.empty specM0 5 (by decide)⟩

/-- C2: when CreateModel of a spec succeeds, CreateModel of any spec with the
same ModelID (whatever its tenant, organization, project, path or flag) fails
with the duplicate-key error, writes nothing, and the rows stored under that
ModelID are still just the first model. -/
theorem createModel_same_modelID_fails (s : S) (a b : ModelSpec) (now later : Nat) (m : Model)
    (hid : a.ModelID = b.ModelID) (hok : (s.CreateModel a now).1 = .ok m) :
    ((s.CreateModel a now).2.CreateModel b later).1 = .error .ErrDuplicatedKey ∧
    ((s.CreateModel a now).2.CreateModel b later).2 = (s.CreateModel a now).2 ∧
    ((s.CreateModel a now).2.CreateModel b later).2.db.models.filter
      (fun r => decide (r.ModelID = a.ModelID)) = [m] := by
  have hfresh := createModel_ok_fresh s a now m hok
  obtain ⟨m0, hc, -, -, -, -, hm0, -⟩ := createModel_fresh s a now hfresh
  rw [hc] at hok
  injection hok with hok
  subst hok
  rw [hc]
  have htaken := createModel_taken
    { db := { models := s.db.models ++ [m0], nextID := s.db.nextID + 1 } } b later
    ⟨m0, by simp, hm0.trans hid⟩
  rw [htaken]
  refine ⟨rfl, rfl, ?_⟩
  have hnil : s.db.models.filter (fun r => decide (r.ModelID = a.ModelID)) = [] := by
    rw [List.filter_eq_nil_iff]
    intro r hr
    simpa using hfresh r hr
  simp [List.filter_append, hnil, List.filter, hm0]

/-- C2 at the empty store: m0 is created, a second m0 under another project is
refused. -/
theorem createModel_same_modelID_fails_witness :
    ∃ m : Model, (S.empty.CreateModel specM0 5).1 = .ok m ∧
      specM0.ProjectID ≠ specM0Other.ProjectID ∧
      ((S.empty.CreateModel specM0 5).2.CreateModel specM0Other 6).1 = .error .ErrDuplicatedKey ∧
      ((S.empty.CreateModel specM0 5).2.CreateModel specM0Other 6).2
        = (S.empty.CreateModel specM0 5).2 ∧
      ((S.empty.CreateModel specM0 5).2.CreateModel specM0Other 6).2.db.models.filter
        (fun r => decide (r.ModelID = specM0.ModelID)) = [m] :=
  ⟨_, rfl, by decide,
    createModel_same_modelID_fails S.empty specM0 specM0Other 5 6 _ rfl rfl⟩

/-! ## Publishing -/

/-- C3: right after a successful CreateModel of a spec with IsPublished = false,
GetPublishedModelByModelID of its ID fails with ErrRecordNotFound; UpdateModel
of that ID to true then succeeds, and afterwards the same lookup succeeds and
returns the created model with IsPublished = true (and the update time
refreshed), all other fields as created. -/
theorem getPublished_after_updateModel (s : S) (spec : ModelSpec) (now later : Nat) (m : Model)
    (hpub : spec.IsPublished = false) (hok : (s.CreateModel spec now).1 = .ok m) :
    ((s.CreateModel spec now).2.GetPublishedModelByModelID spec.ModelID).1
      = .error .ErrRecordNotFound ∧
    ((s.CreateModel spec now).2.UpdateModel spec.ModelID true later).1 = .ok () ∧
    (((s.CreateModel spec now).2.UpdateModel spec.ModelID true later).2.GetPublishedModelByModelID
        spec.ModelID).1 = .ok { m with IsPublished := true, UpdatedAt := later } ∧
    m.ModelID = spec.ModelID ∧ m.TenantID = spec.TenantID ∧
    m.OrganizationID = spec.OrganizationID ∧ m.ProjectID = spec.ProjectID ∧
    m.Path = spec.Path := by
  have hfresh := createModel_ok_fresh s spec now m hok
  obtain ⟨m0, hc, -, -, -, hdel, hid, ht, ho, hp, hpath, hflag⟩ :=
    createModel_fresh s spec now hfresh
  rw [hc] at hok
  injection hok with hok
  subst hok
  rw [hc]
  have hup := updateModel_present
    { db := { models := s.db.models ++ [m0], nextID := s.db.nextID + 1 } }
    spec.ModelID true later ⟨m0, by simp, hid, hdel⟩
  rw [hup]
  refine ⟨?_, rfl, ?_, hid, ht, ho, hp, hpath⟩
  · simp only [S.GetPublishedModelByModelID]
    rw [take_eq_error]
    refine ⟨rfl, ?_⟩
    intro r hr
    cases hsel : (Query.new.Where [.modelID spec.ModelID, .isPublished true]).selects r with
    | false => rfl
    | true =>
      have h1 := (selects_modelID_published _ _).1 hsel
      rcases List.mem_append.1 hr with hr | hr
      · exact absurd h1.1.1 (hfresh r hr)
      · rw [List.mem_singleton] at hr
        subst hr
        rw [hflag, hpub] at h1
        exact absurd h1.1.2 (by decide)
  · simp only [S.GetPublishedModelByModelID]
    have hold : s.db.models.map (fun r =>
          if decide (r.ModelID = spec.ModelID ∧ r.DeletedAt = none) = true
          then { r with IsPublished := true, UpdatedAt := later } else r) = s.db.models := by
      conv_rhs => rw [← List.map_id s.db.models]
      apply List.map_congr_left
      intro r hr
      have : ¬ (r.ModelID = spec.ModelID ∧ r.DeletedAt = none) := fun h => hfresh r hr h.1
      simp [this]
    have hnew : (if decide (m0.ModelID = spec.ModelID ∧ m0.DeletedAt = none) = true
          then ({ m0 with IsPublished := true, UpdatedAt := later } : Model) else m0)
          = { m0 with IsPublished := true, UpdatedAt := later } := by
      simp [hid, hdel]
    rw [List.map_append, hold, List.map_singleton, hnew]
    apply take_append_last
    · intro r hr
      cases hsel : (Query.new.Where [.modelID spec.ModelID, .isPublished true]).selects r with
      | false => rfl
      | true => exact absurd ((selects_modelID_published _ _).1 hsel).1.1 (hfresh r hr)
    · exact (selects_modelID_published _ _).2 ⟨⟨hid, rfl⟩, hdel⟩

/-- C3 at the empty store and the unpublished spec of m0. -/
theorem getPublished_after_updateModel_witness :
    specM0.IsPublished = false ∧
    ∃ m : Model, (S.empty.CreateModel specM0 5).1 = .ok m ∧
      ((S.empty.CreateModel specM0 5).2.GetPublishedModelByModelID specM0.ModelID).1
        = .error .ErrRecordNotFound ∧
      ((S.empty.CreateModel specM0 5).2.UpdateModel specM0.ModelID true 7).1 = .ok () ∧
      (((S.empty.CreateModel specM0 5).2.UpdateModel specM0.ModelID true
          7).2.GetPublishedModelByModelID
          specM0.ModelID).1 = .ok { m with IsPublished := true, UpdatedAt := 7 } ∧
      m.ModelID = specM0.ModelID ∧ m.TenantID = specM0.TenantID ∧
      m.OrganizationID = specM0.OrganizationID ∧ m.ProjectID = specM0.ProjectID ∧
      m.Path = specM0.Path :=
  ⟨rfl, _, rfl, getPublished_after_updateModel S.empty specM0 5 7 _ rfl rfl⟩

/-! ## Deleting -/

/-- C4: in a store state with the unique index on ModelID, DeleteModel of a
model ID and project ID that no stored row carries together (also when a row
with that model ID exists under another project) fails with ErrRecordNotFound
and leaves the store as it was; when such a row exists DeleteModel succeeds and
the following GetModelByModelID of that ID fails with ErrRecordNotFound. -/
theorem deleteModel_scoped (s : S) (id p : String) (now : Nat) (hu : s.UniqueModelIDs) :
    ((∀ r ∈ s.db.models, ¬ (r.ModelID = id ∧ r.ProjectID = p)) →
      s.DeleteModel id p now = (.error .ErrRecordNotFound, s)) ∧
    ((∃ r ∈ s.db.models, r.ModelID = id ∧ r.ProjectID = p) →
      (s.DeleteModel id p now).1 = .ok () ∧
      ((s.DeleteModel id p now).2.GetModelByModelID id).1 = .error .ErrRecordNotFound) := by
  refine ⟨deleteModel_absent s id p now, ?_⟩
  intro h
  rw [deleteModel_present s id p now h]
  refine ⟨rfl, ?_⟩
  simp only [S.GetModelByModelID]
  rw [take_eq_error]
  refine ⟨rfl, ?_⟩
  intro m hm
  cases hsel : (Query.new.Where [.modelID id]).selects m with
  | false => rfl
  | true =>
    exfalso
    have hmid := ((selects_modelID _ _).1 hsel).1
    obtain ⟨hmem, hkeep⟩ := List.mem_filter.1 hm
    obtain ⟨r, hr, hrid, hrp⟩ := h
    have hmr : m = r := eq_of_modelID_eq s hu m r hmem hr (hmid.trans hrid.symm)
    subst hmr
    simp [hrid, hrp] at hkeep

/-- C4 at the store holding m0 (project p2) and m1 (project p1): deleting m0
under project p1 is refused and changes nothing, deleting it under p2 removes
it. -/
theorem deleteModel_scoped_witness :
    storeTwo.UniqueModelIDs ∧
    storeTwo.DeleteModel "m0" "p1" 9 = (.error .ErrRecordNotFound, storeTwo) ∧
    (storeTwo.DeleteModel "m0" "p2" 9).1 = .ok () ∧
    ((storeTwo.DeleteModel "m0" "p2" 9).2.GetModelByModelID "m0").1
      = .error .ErrRecordNotFound :=
  have hu : storeTwo.UniqueModelIDs := by unfold S.UniqueModelIDs; decide
  ⟨hu, (deleteModel_scoped storeTwo "m0" "p1" 9 hu).1 (by decide),
    (deleteModel_scoped storeTwo "m0" "p2" 9 hu).2 (by decide)⟩

/-! ## Listing -/

/-- C5: ListModelsByProjectID with onlyPublished set returns exactly the live
(not soft-deleted) rows of the project that are published, and without it
exactly the live rows of the project, in both cases as the sub-list of the table
(so each such row as often as it is stored, once under the unique index), and
leaves the store unchanged. Every listed model belongs to the project asked
for; in particular a model just created under another project is not listed. -/
theorem listModelsByProjectID_exact (s : S) (p : String) :
    s.ListModelsByProjectID p true =
      (.ok (s.db.models.filter fun m =>
        decide ((m.ProjectID = p ∧ m.IsPublished = true) ∧ m.DeletedAt = none)), s) ∧
    s.ListModelsByProjectID p false =
      (.ok (s.db.models.filter fun m => decide (m.ProjectID = p ∧ m.DeletedAt = none)), s) ∧
    (∀ (b : Bool) (ms : List Model), (s.ListModelsByProjectID p b).1 = .ok ms →
      (∀ m ∈ ms, m.ProjectID = p ∧ m ∈ s.db.models) ∧ (s.UniqueModelIDs → ms.Nodup)) ∧
    (∀ (spec : ModelSpec) (now : Nat) (m : Model) (ms : List Model),
      spec.ProjectID ≠ p → (s.CreateModel spec now).1 = .ok m →
      ((s.CreateModel spec now).2.ListModelsByProjectID p false).1 = .ok ms → m ∉ ms) := by
  have htrue : s.ListModelsByProjectID p true =
      (.ok (s.db.models.filter fun m =>
        decide ((m.ProjectID = p ∧ m.IsPublished = true) ∧ m.DeletedAt = none)), s) := by
    have hq : ((Query.new.Where [.projectID p]).Where [.isPublished true]).selects =
        fun m => decide ((m.ProjectID = p ∧ m.IsPublished = true) ∧ m.DeletedAt = none) := by
      funext m
      rw [Bool.eq_iff_iff, selects_projectID_published]
      simp
    simp only [S.ListModelsByProjectID, DB.Find, if_true, hq]
  have hfalse : s.ListModelsByProjectID p false =
      (.ok (s.db.models.filter fun m => decide (m.ProjectID = p ∧ m.DeletedAt = none)), s) := by
    have hq : (Query.new.Where [.projectID p]).selects =
        fun m => decide (m.ProjectID = p ∧ m.DeletedAt = none) := by
      funext m
      rw [Bool.eq_iff_iff, selects_projectID]
      simp
    have hif : (if false = true then (Query.new.Where [.projectID p]).Where [.isPublished true]
        else Query.new.Where [.projectID p]) = Query.new.Where [.projectID p] := rfl
    simp only [S.ListModelsByProjectID, DB.Find, hif, hq]
  have hproj : ∀ (t : S) (b : Bool) (ms : List Model),
      (t.ListModelsByProjectID p b).1 = .ok ms →
      ∀ m ∈ ms, m.ProjectID = p ∧ m ∈ t.db.models := by
    intro t b ms h m hm
    simp only [S.ListModelsByProjectID, DB.Find] at h
    injection h with h
    subst h
    obtain ⟨hmem, hsel⟩ := List.mem_filter.1 hm
    cases b with
    | true => exact ⟨((selects_projectID_published p m).1 (by simpa using hsel)).1.1, hmem⟩
    | false => exact ⟨((selects_projectID p m).1 (by simpa using hsel)).1, hmem⟩
  refine ⟨htrue, hfalse, ?_, ?_⟩
  · intro b ms h
    refine ⟨hproj s b ms h, ?_⟩
    intro hu
    simp only [S.ListModelsByProjectID, DB.Find] at h
    injection h with h
    subst h
    have hnd : s.db.models.Nodup := by
      unfold S.UniqueModelIDs at hu
      exact hu.imp (fun hab heq => hab (by rw [heq]))
    exact hnd.filter _
  · intro spec now m ms hne hok hlist hmem
    have hfresh := createModel_ok_fresh s spec now m hok
    obtain ⟨m0, hc, -, -, -, -, -, -, -, hp, -⟩ := createModel_fresh s spec now hfresh
    rw [hc] at hok
    injection hok with hok
    subst hok
    exact hne (hp.symm.trans (hproj _ false ms hlist m0 hmem).1)

/-- C5 at the store holding m0 (project p2, unpublished) and m1 (project p1,
published). -/
theorem listModelsByProjectID_exact_witness :
    (∃ m1 : Model, (storeTwo.ListModelsByProjectID "p1" true).1 = .ok [m1] ∧
      m1.ModelID = "m1") ∧
    (storeTwo.ListModelsByProjectID "p2" true).1 = .ok [] ∧
    (∃ m0 : Model, (storeTwo.ListModelsByProjectID "p2" false).1 = .ok [m0] ∧
      m0.ModelID = "m0") ∧
    (storeTwo.ListModelsByProjectID "p2" false).1 =
      .ok (storeTwo.db.models.filter fun m => decide (m.ProjectID = "p2" ∧ m.DeletedAt = none)) :=
  ⟨⟨_, rfl, rfl⟩, rfl, ⟨_, rfl, rfl⟩,
    congrArg Prod.fst (listModelsByProjectID_exact storeTwo "p2").2.1⟩

/-! ## Scoped published lookup -/

/-- C6: GetPublishedModelByModelIDAndProjectID gives the same answer,
ErrRecordNotFound and no model, on a store in which every row with the model ID
belongs to another project, is unpublished or is soft-deleted, as on a store
with no row of that ID at all, and leaves either store unchanged. It succeeds
only by returning a stored live row with that ModelID, that ProjectID and
IsPublished = true, it does succeed when there is one, and under the unique
index the row returned is that very row. -/
theorem getPublishedScoped_indistinguishable (id p : String) :
    (∀ s₁ s₂ : S,
      (∀ r ∈ s₁.db.models, r.ModelID = id →
        r.ProjectID ≠ p ∨ r.IsPublished = false ∨ r.DeletedAt ≠ none) →
      (∀ r ∈ s₂.db.models, r.ModelID ≠ id) →
      (s₁.GetPublishedModelByModelIDAndProjectID id p).1
        = (s₂.GetPublishedModelByModelIDAndProjectID id p).1 ∧
      (s₁.GetPublishedModelByModelIDAndProjectID id p).1 = .error .ErrRecordNotFound ∧
      (s₁.GetPublishedModelByModelIDAndProjectID id p).2 = s₁ ∧
      (s₂.GetPublishedModelByModelIDAndProjectID id p).2 = s₂) ∧
    (∀ (s : S) (m : Model), (s.GetPublishedModelByModelIDAndProjectID id p).1 = .ok m →
      m ∈ s.db.models ∧ m.ModelID = id ∧ m.ProjectID = p ∧ m.IsPublished = true ∧
      m.DeletedAt = none) ∧
    (∀ (s : S) (r : Model), r ∈ s.db.models → r.ModelID = id → r.ProjectID = p →
      r.IsPublished = true → r.DeletedAt = none →
      (∃ m, (s.GetPublishedModelByModelIDAndProjectID id p).1 = .ok m) ∧
      (s.UniqueModelIDs → (s.GetPublishedModelByModelIDAndProjectID id p).1 = .ok r)) := by
  have hsound : ∀ (s : S) (m : Model),
      (s.GetPublishedModelByModelIDAndProjectID id p).1 = .ok m →
      m ∈ s.db.models ∧ m.ModelID = id ∧ m.ProjectID = p ∧ m.IsPublished = true ∧
      m.DeletedAt = none := by
    intro s m h
    obtain ⟨hmem, hsel⟩ := take_ok_mem _ _ _ h
    obtain ⟨⟨h1, h2, h3⟩, h4⟩ := (selects_modelID_projectID_published id p m).1 hsel
    exact ⟨hmem, h1, h2, h3, h4⟩
  refine ⟨?_, hsound, ?_⟩
  · intro s₁ s₂ h₁ h₂
    have e₁ : (s₁.GetPublishedModelByModelIDAndProjectID id p).1 = .error .ErrRecordNotFound := by
      simp only [S.GetPublishedModelByModelIDAndProjectID]
      rw [take_eq_error]
      refine ⟨rfl, ?_⟩
      intro r hr
      cases hsel : (Query.new.Where [.modelID id, .projectID p, .isPublished true]).selects r with
      | false => rfl
      | true =>
        obtain ⟨⟨h1, h2, h3⟩, h4⟩ := (selects_modelID_projectID_published id p r).1 hsel
        rcases h₁ r hr h1 with h | h | h
        · exact absurd h2 h
        · rw [h3] at h
          cases h
        · exact absurd h4 h
    have e₂ : (s₂.GetPublishedModelByModelIDAndProjectID id p).1 = .error .ErrRecordNotFound := by
      simp only [S.GetPublishedModelByModelIDAndProjectID]
      rw [take_eq_error]
      refine ⟨rfl, ?_⟩
      intro r hr
      cases hsel : (Query.new.Where [.modelID id, .projectID p, .isPublished true]).selects r with
      | false => rfl
      | true =>
        exact absurd ((selects_modelID_projectID_published id p r).1 hsel).1.1 (h₂ r hr)
    exact ⟨e₁.trans e₂.symm, e₁, rfl, rfl⟩
  · intro s r hr h1 h2 h3 h4
    have hsel := (selects_modelID_projectID_published id p r).2 ⟨⟨h1, h2, h3⟩, h4⟩
    obtain ⟨m, hm⟩ := take_ok_of_mem s.db _ r hr hsel
    refine ⟨⟨m, hm⟩, ?_⟩
    intro hu
    obtain ⟨hmem, hmid, -⟩ := hsound s m hm
    have : m = r := eq_of_modelID_eq s hu m r hmem hr (hmid.trans h1.symm)
    rw [← this]
    exact hm

/-- C6 at concrete stores: m0 (project p2, unpublished) looked up under p2 and
m1 (project p1, published) looked up under p2 both answer like the empty store;
m1 looked up under p1 is returned. -/
theorem getPublishedScoped_indistinguishable_witness :
    (storeTwo.GetPublishedModelByModelIDAndProjectID "m0" "p2").1
      = (S.empty.GetPublishedModelByModelIDAndProjectID "m0" "p2").1 ∧
    (storeTwo.GetPublishedModelByModelIDAndProjectID "m1" "p2").1
      = (S.empty.GetPublishedModelByModelIDAndProjectID "m1" "p2").1 ∧
    (storeTwo.GetPublishedModelByModelIDAndProjectID "m1" "p2").1 = .error .ErrRecordNotFound ∧
    (∃ m : Model, (storeTwo.GetPublishedModelByModelIDAndProjectID "m1" "p1").1 = .ok m ∧
      m ∈ storeTwo.db.models ∧ m.ModelID = "m1" ∧ m.ProjectID = "p1" ∧
      m.IsPublished = true ∧ m.DeletedAt = none) :=
  ⟨((getPublishedScoped_indistinguishable "m0" "p2").1 storeTwo S.empty
      (by decide) (by decide)).1,
   ((getPublishedScoped_indistinguishable "m1" "p2").1 storeTwo S.empty
      (by decide) (by decide)).1,
   ((getPublishedScoped_indistinguishable "m1" "p2").1 storeTwo S.empty
      (by decide) (by decide)).2.1,
   ⟨_, rfl, (getPublishedScoped_indistinguishable "m1" "p1").2.1 storeTwo _ rfl⟩⟩

/-! ## Updating the publish flag -/

/-- The table after UpdateModel, whether the call succeeds or not. -/
theorem updateModel_models (s : S) (id : String) (b : Bool) (now : Nat) :
    (s.UpdateModel id b now).2.db.models = s.db.models.map (fun r =>
      if decide (r.ModelID = id ∧ r.DeletedAt = none) = true
      then { r with IsPublished := b, UpdatedAt := now } else r) := by
  simp only [S.UpdateModel, DB.Update, selects_modelID_eq]
  split <;> rfl

/-- C7: UpdateModel fails with ErrRecordNotFound exactly when no live row
carries the model ID, and then the store is unchanged; otherwise it succeeds,
whatever the flag was before. The table keeps its length and every row its
place; a live row with the model ID ends with IsPublished = b and keeps its ID,
ModelID, TenantID, OrganizationID, ProjectID, Path and lifecycle marks except
the update time; every other row is unchanged. -/
theorem updateModel_contract (s : S) (id : String) (b : Bool) (now : Nat) :
    ((s.UpdateModel id b now).1 = .error .ErrRecordNotFound ↔
      ∀ r ∈ s.db.models, ¬ (r.ModelID = id ∧ r.DeletedAt = none)) ∧
    ((s.UpdateModel id b now).1 = .error .ErrRecordNotFound → (s.UpdateModel id b now).2 = s) ∧
    ((s.UpdateModel id b now).1 ≠ .error .ErrRecordNotFound → (s.UpdateModel id b now).1 = .ok ()) ∧
    (s.UpdateModel id b now).2.db.models.length = s.db.models.length ∧
    ∀ (i : Nat) (r : Model), s.db.models[i]? = some r →
      ∃ r' : Model, (s.UpdateModel id b now).2.db.models[i]? = some r' ∧
        r'.ID = r.ID ∧ r'.ModelID = r.ModelID ∧ r'.TenantID = r.TenantID ∧
        r'.OrganizationID = r.OrganizationID ∧ r'.ProjectID = r.ProjectID ∧
        r'.Path = r.Path ∧ r'.CreatedAt = r.CreatedAt ∧ r'.DeletedAt = r.DeletedAt ∧
        (r.ModelID = id ∧ r.DeletedAt = none → r'.IsPublished = b) ∧
        (¬ (r.ModelID = id ∧ r.DeletedAt = none) → r' = r) := by
  have hrows : ∀ (i : Nat) (r : Model), s.db.models[i]? = some r →
      ∃ r' : Model, (s.UpdateModel id b now).2.db.models[i]? = some r' ∧
        r'.ID = r.ID ∧ r'.ModelID = r.ModelID ∧ r'.TenantID = r.TenantID ∧
        r'.OrganizationID = r.OrganizationID ∧ r'.ProjectID = r.ProjectID ∧
        r'.Path = r.Path ∧ r'.CreatedAt = r.CreatedAt ∧ r'.DeletedAt = r.DeletedAt ∧
        (r.ModelID = id ∧ r.DeletedAt = none → r'.IsPublished = b) ∧
        (¬ (r.ModelID = id ∧ r.DeletedAt = none) → r' = r) := by
    intro i r hi
    rw [updateModel_models, List.getElem?_map, hi]
    by_cases hsel : r.ModelID = id ∧ r.DeletedAt = none
    · refine ⟨{ r with IsPublished := b, UpdatedAt := now }, by simp [hsel],
        rfl, rfl, rfl, rfl, rfl, rfl, rfl, rfl, fun _ => rfl, fun h => absurd hsel h⟩
    · refine ⟨r, by simp [hsel], rfl, rfl, rfl, rfl, rfl, rfl, rfl, rfl,
        fun h => absurd h hsel, fun _ => rfl⟩
  have hlen : (s.UpdateModel id b now).2.db.models.length = s.db.models.length := by
    rw [updateModel_models, List.length_map]
  by_cases h : ∃ r ∈ s.db.models, r.ModelID = id ∧ r.DeletedAt = none
  · have hp := updateModel_present s id b now h
    refine ⟨?_, ?_, ?_, hlen, hrows⟩
    · rw [hp]
      constructor
      · intro he
        cases he
      · intro hall
        obtain ⟨r, hr, hsel⟩ := h
        exact absurd hsel (hall r hr)
    · rw [hp]
      intro he
      cases he
    · rw [hp]
      intro _
      rfl
  · have hall : ∀ r ∈ s.db.models, ¬ (r.ModelID = id ∧ r.DeletedAt = none) :=
      fun r hr hsel => h ⟨r, hr, hsel⟩
    have ha := updateModel_absent s id b now hall
    refine ⟨?_, ?_, ?_, hlen, hrows⟩
    · rw [ha]
      exact ⟨fun _ => hall, fun _ => rfl⟩
    · rw [ha]
      intro _
      rfl
    · rw [ha]
      intro hne
      exact absurd rfl hne

/-- C7 at the store holding m0 and m1: republishing the already published m1
succeeds, updating an unknown ID fails and changes nothing. -/
theorem updateModel_contract_witness :
    (storeTwo.UpdateModel "m1" true 9).1 = .ok () ∧
    (storeTwo.UpdateModel "m7" true 9).1 = .error .ErrRecordNotFound ∧
    (storeTwo.UpdateModel "m7" true 9).2 = storeTwo :=
  ⟨(updateModel_contract storeTwo "m1" true 9).2.2.1
      (show (Except.ok () : Except Error Unit) ≠ .error .ErrRecordNotFound from
        fun h => Except.noConfusion h),
   (updateModel_contract storeTwo "m7" true 9).1.2 (by decide),
   (updateModel_contract storeTwo "m7" true 9).2.1 rfl⟩

/-! ## Global uniqueness of ModelID -/

/-- The table after DeleteModel, whether the call succeeds or not. -/
theorem deleteModel_models (s : S) (id p : String) (now : Nat) :
    (s.DeleteModel id p now).2.db.models =
      s.db.models.filter (fun r => !decide (r.ModelID = id ∧ r.ProjectID = p)) := by
  have hu : (Query.new.Unscoped.Where [.modelID id, .projectID p]).unscoped = true := rfl
  simp only [S.DeleteModel, DB.Delete, hu, if_true, selects_unscoped_eq]
  split <;> rfl

/-- CreateModel keeps the ModelIDs of the table distinct. -/
theorem createModel_unique (s : S) (spec : ModelSpec) (now : Nat) (hu : s.UniqueModelIDs) :
    (s.CreateModel spec now).2.UniqueModelIDs := by
  by_cases h : ∃ r ∈ s.db.models, r.ModelID = spec.ModelID
  · rw [createModel_taken s spec now h]
    exact hu
  · have hfresh : ∀ r ∈ s.db.models, r.ModelID ≠ spec.ModelID :=
      fun r hr heq => h ⟨r, hr, heq⟩
    obtain ⟨m, hc, -, -, -, -, hid, -⟩ := createModel_fresh s spec now hfresh
    rw [hc]
    unfold S.UniqueModelIDs at hu ⊢
    rw [List.pairwise_append]
    refine ⟨hu, List.pairwise_singleton _ _, ?_⟩
    intro a ha b hb
    rw [List.mem_singleton] at hb
    subst hb
    rw [hid]
    exact hfresh a ha

/-- UpdateModel keeps the ModelIDs of the table distinct. -/
theorem updateModel_unique (s : S) (id : String) (b : Bool) (now : Nat)
    (hu : s.UniqueModelIDs) : (s.UpdateModel id b now).2.UniqueModelIDs := by
  unfold S.UniqueModelIDs at hu ⊢
  rw [updateModel_models]
  apply List.Pairwise.map _ _ hu
  intro x y hxy
  by_cases hx : x.ModelID = id ∧ x.DeletedAt = none <;>
    by_cases hy : y.ModelID = id ∧ y.DeletedAt = none <;>
    simp [hx, hy] at hxy ⊢ <;> exact hxy

/-- DeleteModel keeps the ModelIDs of the table distinct. -/
theorem deleteModel_unique (s : S) (id p : String) (now : Nat) (hu : s.UniqueModelIDs) :
    (s.DeleteModel id p now).2.UniqueModelIDs := by
  unfold S.UniqueModelIDs at hu ⊢
  rw [deleteModel_models]
  exact hu.filter _

/-- C9: in every store state reached from the empty store by CreateModel,
UpdateModel and DeleteModel calls, successful or failing, no two stored rows
carry the same ModelID, whatever their tenant, organization or project. -/
theorem modelID_globally_unique (s : S) (h : Reachable s) :
    s.db.models.Pairwise (fun a b => a.ModelID ≠ b.ModelID) ∧
    ∀ a ∈ s.db.models, ∀ b ∈ s.db.models, a.ModelID = b.ModelID → a = b := by
  have hu : s.UniqueModelIDs := by
    induction h with
    | empty => exact List.Pairwise.nil
    | create t spec now _ ih => exact createModel_unique t spec now ih
    | update t id b now _ ih => exact updateModel_unique t id b now ih
    | delete t id p now _ ih => exact deleteModel_unique t id p now ih
  exact ⟨hu, fun a ha b hb hab => eq_of_modelID_eq s hu a b ha hb hab⟩

/-- C9 at the state reached by creating m0, a refused second m0, creating m1,
publishing m0 and deleting m1. -/
theorem modelID_globally_unique_witness :
    Reachable (((((S.empty.CreateModel specM0 5).2.CreateModel specM0Other 6).2.CreateModel
      specM1 7).2.UpdateModel "m0" true 8).2.DeleteModel "m1" "p1" 9).2 ∧
    (((((S.empty.CreateModel specM0 5).2.CreateModel specM0Other 6).2.CreateModel
      specM1 7).2.UpdateModel "m0" true 8).2.DeleteModel "m1" "p1" 9).2.db.models.Pairwise
      (fun a b => a.ModelID ≠ b.ModelID) :=
  have hr : Reachable (((((S.empty.CreateModel specM0 5).2.CreateModel specM0Other 6).2.CreateModel
      specM1 7).2.UpdateModel "m0" true 8).2.DeleteModel "m1" "p1" 9).2 :=
    .delete _ _ _ _ (.update _ _ _ _ (.create _ _ _ (.create _ _ _ (.create _ _ _ .empty))))
  ⟨hr, (modelID_globally_unique _ hr).1⟩

/-! ## Project scoping -/

/-- C10 as stated fails: with a model m0 stored under project p2, a caller of
project p1 gets m0 back from GetModelByModelID, and UpdateModel on m0 succeeds
and rewrites that row of project p2. -/
theorem unscoped_operations_cross_project :
    (∃ m : Model, (storeOne.GetModelByModelID "m0").1 = .ok m ∧
      m.ProjectID = "p2" ∧ m.ProjectID ≠ "p1") ∧
    (storeOne.UpdateModel "m0" true 9).1 = .ok () ∧
    (∃ m ∈ storeOne.db.models, m.ProjectID ≠ "p1" ∧
      m ∉ (storeOne.UpdateModel "m0" true 9).2.db.models) :=
  ⟨⟨_, rfl, by decide, by decide⟩, rfl, by decide⟩

/-- C10 amended: the operations that take a project ID keep to it. With p
passed as the project, CreateModel returns a model of project p and leaves the
rows of other projects as they were; GetPublishedModelByModelIDAndProjectID and
ListModelsByProjectID return only models of project p and change nothing;
DeleteModel leaves the rows of other projects as they were. GetModelByModelID
and UpdateModel take no project ID and go by ModelID alone, whatever the project
of the row: the former changes nothing, returns only a live stored row with that
ModelID, succeeds whenever there is one and under the unique index returns that
very row; the latter leaves the rows with another ModelID as they were, succeeds
whenever a live row carries the ModelID and rewrites every such row in place to
the new flag and update time. -/
theorem project_scoped_operations (s : S) (p : String) :
    (∀ (spec : ModelSpec) (now : Nat), spec.ProjectID = p →
      (∀ m, (s.CreateModel spec now).1 = .ok m → m.ProjectID = p) ∧
      (s.CreateModel spec now).2.db.models.filter (fun r => decide (r.ProjectID ≠ p))
        = s.db.models.filter (fun r => decide (r.ProjectID ≠ p))) ∧
    (∀ (id : String),
      (∀ m, (s.GetPublishedModelByModelIDAndProjectID id p).1 = .ok m → m.ProjectID = p) ∧
      (s.GetPublishedModelByModelIDAndProjectID id p).2 = s) ∧
    (∀ (b : Bool),
      (∀ ms, (s.ListModelsByProjectID p b).1 = .ok ms → ∀ m ∈ ms, m.ProjectID = p) ∧
      (s.ListModelsByProjectID p b).2 = s) ∧
    (∀ (id : String) (now : Nat),
      (s.DeleteModel id p now).2.db.models.filter (fun r => decide (r.ProjectID ≠ p))
        = s.db.models.filter (fun r => decide (r.ProjectID ≠ p))) ∧
    (∀ (id : String),
      (∀ m, (s.GetModelByModelID id).1 = .ok m →
        m ∈ s.db.models ∧ m.ModelID = id ∧ m.DeletedAt = none) ∧
      (s.GetModelByModelID id).2 = s) ∧
    (∀ (id : String) (b : Bool) (now : Nat),
      (s.UpdateModel id b now).2.db.models.filter (fun r => decide (r.ModelID ≠ id))
        = s.db.models.filter (fun r => decide (r.ModelID ≠ id))) ∧
    (∀ (id : String) (r : Model), r ∈ s.db.models → r.ModelID = id → r.DeletedAt = none →
      (∃ m, (s.GetModelByModelID id).1 = .ok m ∧ m.ModelID = id) ∧
      (s.UniqueModelIDs → (s.GetModelByModelID id).1 = .ok r)) ∧
    (∀ (id : String) (b : Bool) (now i : Nat) (r : Model), s.db.models[i]? = some r →
      r.ModelID = id → r.DeletedAt = none →
      (s.UpdateModel id b now).1 = .ok () ∧
      (s.UpdateModel id b now).2.db.models[i]?
        = some { r with IsPublished := b, UpdatedAt := now }) := by
  refine ⟨?_, ?_, ?_, ?_, ?_, ?_, ?_, ?_⟩
  · intro spec now hp
    by_cases h : ∃ r ∈ s.db.models, r.ModelID = spec.ModelID
    · rw [createModel_taken s spec now h]
      exact ⟨fun m hm => Except.noConfusion hm, rfl⟩
    · have hfresh : ∀ r ∈ s.db.models, r.ModelID ≠ spec.ModelID :=
        fun r hr heq => h ⟨r, hr, heq⟩
      obtain ⟨m0, hc, -, -, -, -, -, -, -, hproj, -⟩ := createModel_fresh s spec now hfresh
      rw [hc]
      constructor
      · intro m hm
        injection hm with hm
        rw [← hm, hproj, hp]
      · have hm0 : m0.ProjectID = p := hproj.trans hp
        simp [List.filter_append, List.filter, hm0]
  · intro id
    refine ⟨?_, rfl⟩
    intro m hm
    obtain ⟨-, hsel⟩ := take_ok_mem _ _ _ hm
    exact ((selects_modelID_projectID_published id p m).1 hsel).1.2.1
  · intro b
    refine ⟨?_, rfl⟩
    intro ms h m hm
    simp only [S.ListModelsByProjectID, DB.Find] at h
    injection h with h
    subst h
    obtain ⟨-, hsel⟩ := List.mem_filter.1 hm
    cases b with
    | true => exact ((selects_projectID_published p m).1 (by simpa using hsel)).1.1
    | false => exact ((selects_projectID p m).1 (by simpa using hsel)).1
  · intro id now
    rw [deleteModel_models, List.filter_filter]
    apply List.filter_congr
    intro r _
    by_cases hr : r.ProjectID = p <;> simp [hr]
  · intro id
    refine ⟨?_, rfl⟩
    intro m hm
    obtain ⟨hmem, hsel⟩ := take_ok_mem _ _ _ hm
    obtain ⟨h1, h2⟩ := (selects_modelID id m).1 hsel
    exact ⟨hmem, h1, h2⟩
  · intro id b now
    rw [updateModel_models]
    induction s.db.models with
    | nil => rfl
    | cons a t ih =>
      rw [List.map_cons, List.filter_cons, List.filter_cons, ih]
      by_cases ha : a.ModelID = id
      · by_cases hd : a.DeletedAt = none <;> simp [ha, hd]
      · simp [ha]
  · intro id r hr hid hlive
    have hsel := (selects_modelID id r).2 ⟨hid, hlive⟩
    obtain ⟨m, hm⟩ := take_ok_of_mem s.db _ r hr hsel
    obtain ⟨hmem, hmsel⟩ := take_ok_mem _ _ _ hm
    have hmid : m.ModelID = id := ((selects_modelID id m).1 hmsel).1
    refine ⟨⟨m, hm, hmid⟩, ?_⟩
    intro hu
    have hmr : m = r := eq_of_modelID_eq s hu m r hmem hr (hmid.trans hid.symm)
    rw [← hmr]
    exact hm
  · intro id b now i r hi hid hlive
    have hmem : r ∈ s.db.models := List.getElem?_mem hi
    constructor
    · rw [updateModel_present s id b now ⟨r, hmem, hid, hlive⟩]
    · rw [updateModel_models, List.getElem?_map, hi]
      simp [hid, hlive]

/-- C10 amended, at the store holding m0 (project p2) and m1 (project p1) with
caller project p1. -/
theorem project_scoped_operations_witness :
    (∀ m, (storeTwo.GetPublishedModelByModelIDAndProjectID "m1" "p1").1 = .ok m →
      m.ProjectID = "p1") ∧
    (storeTwo.DeleteModel "m0" "p1" 9).2.db.models.filter (fun r => decide (r.ProjectID ≠ "p1"))
      = storeTwo.db.models.filter (fun r => decide (r.ProjectID ≠ "p1")) ∧
    (∃ r : Model, storeTwo.db.models[0]? = some r ∧ r.ProjectID = "p2" ∧
      (storeTwo.GetModelByModelID "m0").1 = .ok r ∧
      (storeTwo.UpdateModel "m0" true 9).1 = .ok () ∧
      (storeTwo.UpdateModel "m0" true 9).2.db.models[0]?
        = some { r with IsPublished := true, UpdatedAt := 9 }) :=
  have hu : storeTwo.UniqueModelIDs := by unfold S.UniqueModelIDs; decide
  ⟨((project_scoped_operations storeTwo "p1").2.1 "m1").1,
   (project_scoped_operations storeTwo "p1").2.2.2.1 "m0" 9,
   ⟨_, rfl, rfl,
    ((project_scoped_operations storeTwo "p1").2.2.2.2.2.2.1 "m0" _ (by decide) rfl rfl).2 hu,
    (project_scoped_operations storeTwo "p1").2.2.2.2.2.2.2 "m0" true 9 0 _ rfl rfl rfl⟩⟩

end store

namespace server

/-! ## HF repository registration -/

/-- C8: for a repository name with no registration in the caller scope,
GetHFModelRepo fails with code NotFound and changes nothing; CreateHFModelRepo
then succeeds under either duplicate policy; and the following GetHFModelRepo
succeeds and returns a record whose Name is that name. -/
theorem hfModelRepo_get_create_get (w : WS) (ctx : UserInfo) (n : String)
    (hnew : ∀ r ∈ w.repos, ¬ (r.Name = n ∧ r.TenantID = ctx.TenantID)) :
    w.GetHFModelRepo ctx n = (.error .NotFound, w) ∧
    (∃ r, (w.CreateHFModelRepo ctx n).1 = .ok r) ∧
    ∃ g, ((w.CreateHFModelRepo ctx n).2.GetHFModelRepo ctx n).1 = .ok g ∧ g.Name = n := by
  have hnone : w.repos.find? (fun r => decide (r.Name = n ∧ r.TenantID = ctx.TenantID))
      = none := by
    rw [List.find?_eq_none]
    intro r hr
    simpa using hnew r hr
  have hcreate : w.CreateHFModelRepo ctx n =
      (.ok { Name := n, TenantID := ctx.TenantID },
       { w with repos := w.repos ++ [{ Name := n, TenantID := ctx.TenantID }] }) := by
    simp only [WS.CreateHFModelRepo, hnone]
  refine ⟨by simp only [WS.GetHFModelRepo, hnone], ⟨_, by rw [hcreate]⟩, ?_⟩
  rw [hcreate]
  refine ⟨{ Name := n, TenantID := ctx.TenantID }, ?_, rfl⟩
  simp only [WS.GetHFModelRepo]
  rw [List.find?_append, hnone]
  simp [List.find?]

/-- C8 on the scenario of TestHFModelRepo: repository r0 on a fresh registrar. -/
theorem hfModelRepo_get_create_get_witness :
    (∀ r ∈ (WS.empty .reject).repos, ¬ (r.Name = "r0" ∧ r.TenantID = fakeAuth.TenantID)) ∧
    (WS.empty .reject).GetHFModelRepo fakeAuth "r0" = (.error .NotFound, WS.empty .reject) ∧
    (∃ r, ((WS.empty .reject).CreateHFModelRepo fakeAuth "r0").1 = .ok r) ∧
    ∃ g, (((WS.empty .reject).CreateHFModelRepo fakeAuth "r0").2.GetHFModelRepo fakeAuth "r0").1
      = .ok g ∧ g.Name = "r0" :=
  ⟨by decide, hfModelRepo_get_create_get (WS.empty .reject) fakeAuth "r0" (by decide)⟩

end server
